import Mathlib

/-!
Verification of the AICoder repository's core text-processing and workflow
routines, shallowly embedded in Lean.

Python strings are modelled as `List Char`; the ASCII whitespace set
`" \t\n\r\x0b\x0c"` models Python's `str.strip` / `\s` behaviour (the
repository's inputs are ASCII source text).  Python dicts of filenames are
modelled as insertion-ordered association lists.  Each Lean definition below
is a transcription of the correspondingly named Python function from
`src/main.py`, `src/agents/coder.py` or `src/agents/orchestrator.py`.
-/

abbrev LC := List Char

/-- Convert a Lean string literal into the `List Char` model. -/
def S (s : String) : LC := s.toList

/-- Python whitespace for `str.strip` and the regex class `\s` (ASCII range). -/
def pyIsSpace (c : Char) : Bool :=
  c = ' ' || c = '\t' || c = '\n' || c = '\r' || c = '\x0b' || c = '\x0c'

/-- The regex class `\w` (ASCII range). -/
def isWordChar (c : Char) : Bool :=
  ('a' ≤ c && c ≤ 'z') || ('A' ≤ c && c ≤ 'Z') || ('0' ≤ c && c ≤ '9') || c = '_'

/-- Python `s.split('\n')`: always returns at least one piece. -/
def splitLines : LC → List LC
  | [] => [[]]
  | c :: cs =>
    match splitLines cs with
    | [] => [[]]
    | l :: ls => if c = '\n' then [] :: l :: ls else (c :: l) :: ls

/-- Python `'\n'.join(lines)`. -/
def joinLines (ls : List LC) : LC := List.intercalate ['\n'] ls

/-- Drop trailing characters satisfying `p`. -/
def dropTrail (p : Char → Bool) (l : LC) : LC := (l.reverse.dropWhile p).reverse

/-- Python `s.strip()` (ASCII whitespace). -/
def pyStrip (l : LC) : LC := dropTrail pyIsSpace (l.dropWhile pyIsSpace)

/-- Python `t in s` (substring containment). -/
def hasSubstr (s t : LC) : Bool :=
  t.isPrefixOf s ||
    match s with
    | [] => false
    | _ :: s' => hasSubstr s' t

/-- Python `s.find(t)`: index of the leftmost occurrence. -/
def pyFindSub (s t : LC) : Option Nat :=
  if t.isPrefixOf s then some 0
  else
    match s with
    | [] => none
    | _ :: s' => (pyFindSub s' t).map (· + 1)

/-- Python `s.replace(old, new)` for nonempty `old` (fuel-driven scan). -/
def pyReplaceAux (old new : LC) : Nat → LC → LC
  | 0, s => s
  | fuel + 1, s =>
    if !old.isEmpty && old.isPrefixOf s then
      new ++ pyReplaceAux old new fuel (s.drop old.length)
    else
      match s with
      | [] => []
      | c :: s' => c :: pyReplaceAux old new fuel s'

def pyReplace (s old new : LC) : LC := pyReplaceAux old new s.length s

/-- Python `s.split(sep)` for nonempty `sep` (fuel-driven scan). -/
def pySplitAux (sep : LC) : Nat → LC → LC → List LC
  | 0, s, acc => [acc.reverse ++ s]
  | fuel + 1, s, acc =>
    if !sep.isEmpty && sep.isPrefixOf s then
      acc.reverse :: pySplitAux sep fuel (s.drop sep.length) []
    else
      match s with
      | [] => [acc.reverse]
      | c :: s' => pySplitAux sep fuel s' (c :: acc)

def pySplit (s sep : LC) : List LC := pySplitAux sep (s.length + 1) s []

/-- Insertion-ordered dictionary of filename/content pairs (Python dict). -/
abbrev Dict := List (LC × LC)

/-- Python `d[k] = v`: update in place, or append preserving insertion order. -/
def dictSet (d : Dict) (k v : LC) : Dict :=
  match d with
  | [] => [(k, v)]
  | (k', v') :: rest => if k' = k then (k, v) :: rest else (k', v') :: dictSet rest k v

/-- Python `k in d`. -/
def dictContains (d : Dict) (k : LC) : Bool :=
  match d with
  | [] => false
  | (k', _) :: rest => k' = k || dictContains rest k

/-- Apply a per-line rewrite: `'\n'.join(f(l) for l in s.split('\n'))`. -/
def onLines (f : LC → LC) (c : LC) : LC := joinLines ((splitLines c).map f)

/-!
A miniature regular-expression engine covering exactly the constructs used by
the repository's patterns: literal characters and single-character classes,
each optionally quantified by `?`, `*` or `+` (greedy, with backtracking), and
capture groups that always wrap a single quantified class.  `reSub` follows
Python `re.sub`: global, leftmost, non-overlapping, greedy.
-/

inductive Quant | one | opt | star | plus

/-- One pattern token: a character class with a quantifier and an optional
capture-group index. -/
structure RTok where
  cls : Char → Bool
  q : Quant
  cap : Option Nat

abbrev RPat := List RTok

abbrev Caps := List (Nat × LC)

def addCap : Option Nat → LC → Caps → Caps
  | none, _, caps => caps
  | some i, s, caps => (i, s) :: caps

/-- Try `f` on counts `k, k-1, ..., lo` and return the first success. -/
def tryDown (f : Nat → Option α) (lo : Nat) : Nat → Option α
  | 0 => f 0
  | k + 1 =>
    match f (k + 1) with
    | some r => some r
    | none => if k + 1 ≤ lo then none else tryDown f lo k

/-- Match a token list against a prefix of `s`; returns the rest of the input
and the captures.  Greedy with backtracking, like Python `re`. -/
def mtoks : RPat → LC → Caps → Option (LC × Caps)
  | [], s, caps => some (s, caps)
  | t :: ts, s, caps =>
    let tryK : Nat → Option (LC × Caps) := fun k =>
      mtoks ts (s.drop k) (addCap t.cap (s.take k) caps)
    match t.q with
    | .one =>
      match s with
      | [] => none
      | c :: s' => if t.cls c then mtoks ts s' (addCap t.cap [c] caps) else none
    | .opt =>
      match s with
      | [] => tryK 0
      | c :: _ => if t.cls c then (tryK 1).or (tryK 0) else tryK 0
    | .star => tryDown tryK 0 (s.takeWhile t.cls).length
    | .plus =>
      let n := (s.takeWhile t.cls).length
      if n = 0 then none else tryDown tryK 1 n

/-- Leftmost match: `(prefix before match, matched span, rest, captures)`. -/
def reFindAux : RPat → LC → LC → Option (LC × LC × LC × Caps)
  | p, s, pre =>
    match mtoks p s [] with
    | some (rest, caps) => some (pre.reverse, s.take (s.length - rest.length), rest, caps)
    | none =>
      match s with
      | [] => none
      | c :: s' => reFindAux p s' (c :: pre)

/-- Python `re.search(p, s) is not None`. -/
def reTest (p : RPat) (s : LC) : Bool := (reFindAux p s []).isSome

/-- Python `re.search(p, s).group(i)` for the leftmost match, if any. -/
def reGroup (p : RPat) (s : LC) (i : Nat) : Option LC :=
  match reFindAux p s [] with
  | some (_, _, _, caps) => caps.lookup i
  | none => none

/-- A replacement template: literal pieces and group references. -/
inductive RepItem
  | lit (cs : LC)
  | ref (i : Nat)

def expandRep (tmpl : List RepItem) (caps : Caps) : LC :=
  tmpl.flatMap fun it =>
    match it with
    | .lit cs => cs
    | .ref i => (caps.lookup i).getD []

/-- Python `re.sub(p, tmpl, s)`: global leftmost non-overlapping replacement. -/
def reSubAux (p : RPat) (tmpl : List RepItem) : Nat → LC → LC
  | 0, s => s
  | fuel + 1, s =>
    match reFindAux p s [] with
    | none => s
    | some (pre, matched, rest, caps) =>
      if matched.isEmpty then
        pre ++ expandRep tmpl caps ++
          (match rest with
           | [] => []
           | c :: r => c :: reSubAux p tmpl fuel r)
      else pre ++ expandRep tmpl caps ++ reSubAux p tmpl fuel rest

def reSub (p : RPat) (tmpl : List RepItem) (s : LC) : LC := reSubAux p tmpl (s.length + 1) s

/-! Token and pattern construction helpers, one per regex construct used. -/

def tokLit (c : Char) : RTok := ⟨fun d => d = c, .one, none⟩

/-- A sequence of literal tokens for a plain string fragment. -/
def pLit (s : String) : RPat := s.toList.map tokLit

/-- `\s*` -/
def pSS : RTok := ⟨pyIsSpace, .star, none⟩

/-- `\s+` -/
def pSP : RTok := ⟨pyIsSpace, .plus, none⟩

/-- `\w+`, optionally capturing. -/
def pWP (cap : Option Nat) : RTok := ⟨isWordChar, .plus, cap⟩

/-- A negated single-character class `[^...]`, quantified. -/
def pNot (bad : List Char) (q : Quant) (cap : Option Nat) : RTok :=
  ⟨fun c => !bad.contains c, q, cap⟩

/-- `[...]` positive class, quantified. -/
def pAny (good : List Char) (q : Quant) (cap : Option Nat) : RTok :=
  ⟨fun c => good.contains c, q, cap⟩

/-- `.` (any char except newline), quantified. -/
def pDot (q : Quant) : RTok := ⟨fun c => c ≠ '\n', q, none⟩

/-- `c?` optional literal. -/
def tokOpt (c : Char) : RTok := ⟨fun d => d = c, .opt, none⟩

def rLit (s : String) : RepItem := .lit s.toList

/-!
The repair pipeline of `src/main.py` (`AICoderWorkflow`).  Function names drop
the `_syntax` suffixes of the source (`aggressiveFixFunction` embeds
`aggressive_fix_function_syntax`, and so on); each definition transcribes the
Python body, with every `re` pattern compiled into engine tokens.
-/

/-- `re.search(r'function\s+(\w+)', line)`, used to recover a function name. -/
def reFuncName : RPat := pLit "function" ++ [pSP, pWP (some 1)]

/-- The `patterns_to_fix` table of `aggressive_fix_function_syntax`. -/
def fnPatterns : List (RPat × LC) :=
  [ (pLit "function" ++ [pSP, pWP none, pSS, tokLit '(', pSS, tokLit ':', pSS] ++
       pLit "any" ++ [pSS, tokLit ')'], S "function Component()"),
    (pLit "export" ++ [pSP] ++ pLit "default" ++ [pSP] ++ pLit "function" ++
       [pSP, pWP none, pSS, tokLit '(', pSS, tokLit ':', pSS] ++
       pLit "any" ++ [pSS, tokLit ')'], S "export default function Component()"),
    ([tokLit '(', pSS, tokLit ':', pSS] ++ pLit "any" ++ [pSS, tokLit ')'], S "()"),
    ([tokLit '\x7d', pSS, tokLit ':', pSS, tokLit '\x7b', pSS, pNot ['\x7d'] .star none,
       tokLit '\x7d', pSS, tokLit ':', pSS] ++ pLit "any" ++ [pSS, tokLit ')'],
     S "\x7d: \x7b children: React.ReactNode \x7d)"),
    ([tokLit '\x7d', pSS, tokLit ':', pSS] ++ pLit "any" ++ [pSS, tokLit ')'], S ")") ]

/-- One entry of the `for pattern, replacement in patterns_to_fix` loop. -/
def applyFnPattern (line : LC) (pr : RPat × LC) : LC :=
  if reTest pr.1 line then
    match reGroup reFuncName line 1 with
    | some name => reSub pr.1 [.lit (pyReplace pr.2 (S "Component") name)] line
    | none => reSub pr.1 [.lit pr.2] line
  else line

def aggressiveFixFunctionLine (line : LC) : LC :=
  let l1 := fnPatterns.foldl applyFnPattern line
  if hasSubstr l1 (S "function") && hasSubstr l1 (S "(") && hasSubstr l1 (S ")") then
    reSub ([pSS, tokLit ':', pSS, tokLit ')']) [rLit ")"]
      (reSub ([tokLit '(', pSS, tokLit ':', pSS]) [rLit "("] l1)
  else l1

/-- `aggressive_fix_function_syntax` (main.py:1427). -/
def aggressiveFixFunction (c : LC) : LC := onLines aggressiveFixFunctionLine c

def quoteChars : List Char := ['\x22', '\x27']

def aggressiveFixJsxLine (line : LC) : LC :=
  if !(S "//").isPrefixOf (pyStrip line) && !(S "/*").isPrefixOf (pyStrip line) then
    let l1 := reSub [tokLit '<', pSS, pWP (some 1), pSS, tokLit ';'] [rLit "<", .ref 1] line
    let l2 := reSub [tokLit ';', pSS, pWP (some 1), pSS, tokLit '>'] [.ref 1, rLit ">"] l1
    let l3 := reSub
      [pWP (some 1), pSS, tokLit '=', pSS, pAny quoteChars .one none,
        pNot quoteChars .star (some 2), pAny quoteChars .one none, pSS, tokLit ';']
      [.ref 1, rLit "=\x22", .ref 2, rLit "\x22"] l2
    let l4 := reSub
      [tokLit ';', pSS, pWP (some 1), pSS, tokLit '=', pSS, pAny quoteChars .one none]
      [rLit " ", .ref 1, rLit "=\x22"] l3
    let l5 := reSub
      [tokLit '<', pSS, pWP (some 1), pSS, tokLit ';', pNot ['>'] .star (some 2), pSS,
        tokLit '/', tokLit '>'] [rLit "<", .ref 1, .ref 2, rLit "/>"] l4
    reSub
      [tokLit '<', pSS, pWP (some 1), pNot ['>'] .star (some 2), pSS, tokLit ';', pSS,
        tokLit '/', tokLit '>'] [rLit "<", .ref 1, .ref 2, rLit "/>"] l5
  else line

/-- `aggressive_fix_jsx_syntax` (main.py:1466). -/
def aggressiveFixJsx (c : LC) : LC := onLines aggressiveFixJsxLine c

def aggressiveFixImportExportLine (line : LC) : LC :=
  let l1 :=
    if (S "import").isPrefixOf (pyStrip line) && !(S ";").isSuffixOf (pyStrip line) then
      reSub ([pSS, tokLit ';', pSS] ++ pLit "from" ++ [pSP]) [rLit " from "]
        (reSub ([tokLit '\x7d', pSS, tokLit ';', pSS] ++ pLit "from" ++ [pSP])
          [rLit "\x7d from "]
          (reSub ([tokLit ';', pSP] ++ pLit "from" ++ [pSP]) [rLit " from "] line))
    else line
  if (S "export").isPrefixOf (pyStrip l1) && !(S ";").isSuffixOf (pyStrip l1) then
    reSub (pLit "function" ++ [pSP, pWP (some 1), pSS, tokLit ';', pSS, tokLit '('])
      [rLit "function ", .ref 1, rLit "("]
      (reSub [tokLit ';', pSS, tokLit '('] [rLit "("] l1)
  else l1

/-- `aggressive_fix_import_export_syntax` (main.py:1494).  The source guards
each branch with `fixed_line.strip().startswith(...)`, re-reading the line
after the import fixes ran, which the sequencing above mirrors. -/
def aggressiveFixImportExport (c : LC) : LC := onLines aggressiveFixImportExportLine c

/-- The canonical metadata block injected into `layout.tsx`. -/
def metaExportBlock : LC :=
  S "export const metadata = \x7b\n  title: \x27Generated App\x27,\n  description: \x27Generated by AICoder\x27,\n\x7d"

/-- The layout-branch metadata injection: insert after the import block
(before the first blank line), or prepend when there is none. -/
def ensureMetadata (c : LC) : LC :=
  if hasSubstr c (S "export const metadata") then c
  else
    match pyFindSub c (S "\n\n") with
    | some i => c.take i ++ S "\n\n" ++ metaExportBlock ++ c.drop i
    | none => metaExportBlock ++ S "\n\n" ++ c

/-- `re.sub(r'"use client"\s*\n?', '', c)`. -/
def scrubUseClient (c : LC) : LC :=
  reSub (pLit "\x22use client\x22" ++ [pSS, tokOpt '\n']) [] c

/-- The two layout-signature rewrites of `aggressive_fix_nextjs_syntax`. -/
def layoutSignatureFix (c : LC) : LC :=
  reSub
    (pLit "export" ++ [pSP] ++ pLit "default" ++ [pSP] ++ pLit "function" ++
      [pSP, pWP (some 1), pSS, tokLit '(', pSS, tokLit ')'])
    [rLit "export default function ", .ref 1,
      rLit "(\x7b children \x7d: \x7b children: React.ReactNode \x7d)"]
    (reSub
      (pLit "export" ++ [pSP] ++ pLit "default" ++ [pSP] ++ pLit "function" ++
        [pSP, pWP (some 1), pSS, tokLit '(', pSS, tokLit ':', pSS] ++
        pLit "any" ++ [pSS, tokLit ')'])
      [rLit "export default function ", .ref 1,
        rLit "(\x7b children \x7d: \x7b children: React.ReactNode \x7d)"] c)

def needsClientKeywords : List LC :=
  [S "useState", S "useEffect", S "onClick", S "onChange", S "addEventListener"]

/-- `aggressive_fix_nextjs_syntax` (main.py:1523). -/
def aggressiveFixNextjs (filename : LC) (c : LC) : LC :=
  if filename = S "layout.tsx" then
    ensureMetadata (scrubUseClient (layoutSignatureFix c))
  else if filename = S "page.tsx" then
    let c1 := reSub
      (pLit "export" ++ [pSP] ++ pLit "default" ++ [pSP] ++ pLit "function" ++
        [pSP, pWP (some 1), pSS, tokLit '(', pSS, tokLit ':', pSS] ++
        pLit "any" ++ [pSS, tokLit ')'])
      [rLit "export default function ", .ref 1, rLit "()"] c
    if hasSubstr c1 (S "\x22use client\x22") then
      if needsClientKeywords.any (fun k => hasSubstr c1 k) then c1 else scrubUseClient c1
    else c1
  else c

def finalSyntaxCleanupLine (line : LC) : LC :=
  let l1 := reSub ([tokLit '(', pSS, tokLit ':', pSS] ++ pLit "any" ++ [pSS, tokLit ')'])
    [rLit "()"] line
  let l2 := reSub [tokLit '(', pSS, tokLit ':', pSS, tokLit ')'] [rLit "()"] l1
  let l3 := reSub [tokLit '<', pSS, pWP (some 1), pSS, tokLit ';'] [rLit "<", .ref 1] l2
  let l4 := reSub [tokLit ';', pSS, pWP (some 1), pSS, tokLit '>'] [.ref 1, rLit ">"] l3
  let l5 :=
    if (S "import").isPrefixOf (pyStrip l4) && hasSubstr l4 (S ";") &&
        !(S ";").isSuffixOf (pyStrip l4) then
      pyReplace (pyReplace l4 (S "; ") (S " ")) (S " ;") (S " ")
    else l4
  if (S "export").isPrefixOf (pyStrip l5) && hasSubstr l5 (S ";") &&
      !(S ";").isSuffixOf (pyStrip l5) then
    pyReplace (pyReplace l5 (S "; ") (S " ")) (S " ;") (S " ")
  else l5

/-- `final_syntax_cleanup` (main.py:1576). -/
def finalSyntaxCleanup (c : LC) : LC := onLines finalSyntaxCleanupLine c

/-- One iteration of the `force_syntax_correction` loop body. -/
def onePass (filename : LC) (c : LC) : LC :=
  finalSyntaxCleanup
    (aggressiveFixNextjs filename
      (aggressiveFixImportExport (aggressiveFixJsx (aggressiveFixFunction c))))

/-- The `for pass_num in range(5)` loop with its no-change break. -/
def fscLoop (filename : LC) : Nat → LC → LC
  | 0, c => c
  | n + 1, c =>
    let c' := onePass filename c
    if c' = c then c else fscLoop filename n c'

/-- `force_syntax_correction` (main.py:1395): up to 5 repair passes, stopping
early once a pass makes no change. -/
def forceSyntaxCorrection (filename : LC) (c : LC) : LC := fscLoop filename 5 c

/-!
The single-shot fix passes of `src/main.py` used by `fix_tsx_issues`
(`fix_typescript_syntax_errors`, `fix_jsx_syntax_errors`,
`fix_import_export_syntax`, main.py:381-475).
-/

/-- The `replace('; ', ' ').replace(' ;', ' ')` idiom. -/
def dropSemis (l : LC) : LC := pyReplace (pyReplace l (S "; ") (S " ")) (S " ;") (S " ")

def fixTsLine (line : LC) : LC :=
  let l1 := if hasSubstr line (S "function") && hasSubstr line (S "(: any)") then
      pyReplace line (S "(: any)") (S "()") else line
  let l2 := if hasSubstr l1 (S "\x7d: \x7b") && hasSubstr l1 (S "\x7d: any)") then
      pyReplace l1 (S "\x7d: any)") (S ")") else l1
  if hasSubstr l2 (S "export default function") && hasSubstr l2 (S "(: any)") then
    pyReplace l2 (S "(: any)") (S "()") else l2

/-- `fix_typescript_syntax_errors` (main.py:381). -/
def fixTypescriptErrors (c : LC) : LC := onLines fixTsLine c

def fixJsxLine (line : LC) : LC :=
  let l1 := if hasSubstr line (S "<") && hasSubstr line (S ">") && hasSubstr line (S ";") &&
      !(S "//").isPrefixOf (pyStrip line) && !(S "import").isPrefixOf (pyStrip line) &&
      !(S "export").isPrefixOf (pyStrip line) then dropSemis line else line
  let l2 := if hasSubstr l1 (S "<") && hasSubstr l1 (S "/>") && hasSubstr l1 (S ";") &&
      !(S "//").isPrefixOf (pyStrip l1) then dropSemis l1 else l1
  let l3 := if hasSubstr l2 (S "className=") && hasSubstr l2 (S ";") &&
      !(S "//").isPrefixOf (pyStrip l2) then dropSemis l2 else l2
  let l4 := if hasSubstr l3 (S "src=") && hasSubstr l3 (S ";") &&
      !(S "//").isPrefixOf (pyStrip l3) then dropSemis l3 else l3
  if hasSubstr l4 (S "alt=") && hasSubstr l4 (S ";") &&
      !(S "//").isPrefixOf (pyStrip l4) then dropSemis l4 else l4

/-- `fix_jsx_syntax_errors` (main.py:408). -/
def fixJsxErrors (c : LC) : LC := onLines fixJsxLine c

def fixImportExportLine (line : LC) : LC :=
  let l1 := if (S "import").isPrefixOf (pyStrip line) && hasSubstr line (S ";") &&
      !(S ";").isSuffixOf (pyStrip line) then dropSemis line else line
  if (S "export").isPrefixOf (pyStrip l1) && hasSubstr l1 (S ";") &&
      !(S ";").isSuffixOf (pyStrip l1) then dropSemis l1 else l1

/-- `fix_import_export_syntax` (main.py:452). -/
def fixImportExport (c : LC) : LC := onLines fixImportExportLine c

/-- `re.sub(r'export const metadata\s*=\s*\{[^}]*\};?\n?', '', c)`. -/
def scrubMetadataExport (c : LC) : LC :=
  reSub (pLit "export const metadata" ++
      [pSS, tokLit '=', pSS, tokLit '\x7b', pNot ['\x7d'] .star none, tokLit '\x7d',
        tokOpt ';', tokOpt '\n']) [] c

/-- The six framer-motion rewrites inside `fix_tsx_issues`. -/
def framerMotionFix (c : LC) : LC :=
  let c1 := reSub (pLit "import" ++ [pSP, tokLit '\x7b', pNot ['\x7d'] .star none] ++
      pLit "motion" ++ [pNot ['\x7d'] .star none, tokLit '\x7d', pSP] ++ pLit "from" ++
      [pSP, pAny quoteChars .one none] ++ pLit "framer-motion" ++
      [pAny quoteChars .one none, tokOpt ';', tokOpt '\n']) [] c
  let c2 := reSub (pLit "<motion." ++ [pNot ['>'] .plus (some 1), tokLit '>'])
    [rLit "<div className=\x22transition-all duration-300 ease-in-out ", .ref 1, rLit "\x22>"] c1
  let c3 := reSub (pLit "</motion." ++ [pNot ['>'] .plus (some 1), tokLit '>'])
    [rLit "</div>"] c2
  let c4 := reSub (pLit "initial=" ++ [tokLit '\x7b', pNot ['\x7d'] .star none, tokLit '\x7d']) [] c3
  let c5 := reSub (pLit "animate=" ++ [tokLit '\x7b', pNot ['\x7d'] .star none, tokLit '\x7d']) [] c4
  reSub (pLit "transition=" ++ [tokLit '\x7b', pNot ['\x7d'] .star none, tokLit '\x7d']) [] c5

/-- `re.sub(r'import\s+.*from\s+[\'"]LIB[\'"];?\n?', '', c)` for one library. -/
def removeLibImport (lib : LC) (c : LC) : LC :=
  reSub (pLit "import" ++ [pSP, pDot .star] ++ pLit "from" ++
    [pSP, pAny quoteChars .one none] ++ lib.map tokLit ++
    [pAny quoteChars .one none, tokOpt ';', tokOpt '\n']) [] c

def externalLibs : List LC := [S "react-spring", S "react-transition-group", S "lottie-react"]

/-- `fix_tsx_issues` (main.py:286): the full per-file fix pipeline applied by
`parse_tsx_response` to each parsed file body. -/
def fixTsxIssues (c0 : LC) (filename : LC) : LC :=
  let c1 := forceSyntaxCorrection filename c0
  let c2 := fixImportExport (fixJsxErrors (fixTypescriptErrors c1))
  let c3 := if hasSubstr c2 (S "class ") && hasSubstr c2 (S "extends Component") &&
      !hasSubstr c2 (S "\x22use client\x22") then S "\x22use client\x22\n\n" ++ c2 else c2
  let c4 := pyReplace (pyReplace (pyReplace c3
      (S "@/components/") (S "./components/")) (S "@/app/") (S "./")) (S "@/") (S "./")
  let c5 := if (hasSubstr c4 (S "useState") || hasSubstr c4 (S "useEffect")) &&
      !hasSubstr c4 (S "import React") && !hasSubstr c4 (S "import \x7b ") then
      (if hasSubstr c4 (S "import \x7b ") then
        pyReplace c4 (S "import \x7b ") (S "import React, \x7b ")
      else S "import React from \x27react\x27\n" ++ c4)
    else c4
  let c6 := if !hasSubstr c5 (S "export default") && hasSubstr c5 (S "function ") then
      (match reGroup reFuncName c5 1 with
       | some name =>
         pyReplace c5 (S "function " ++ name) (S "export default function " ++ name)
       | none => c5)
    else c5
  let c7 := if hasSubstr c6 (S "framer-motion") then framerMotionFix c6 else c6
  let c8 := externalLibs.foldl (fun acc lib => removeLibImport lib acc) c7
  let c9 :=
    if filename = S "layout.tsx" then
      let ca := if hasSubstr c8 (S "\x22use client\x22") then scrubUseClient c8 else c8
      ensureMetadata ca
    else if filename = S "page.tsx" then
      (if hasSubstr c8 (S "\x22use client\x22") then
        (if needsClientKeywords.any (fun k => hasSubstr c8 k) then c8 else scrubUseClient c8)
      else c8)
    else c8
  if hasSubstr c9 (S "\x22use client\x22") && hasSubstr c9 (S "export const metadata") then
    scrubMetadataExport c9
  else c9

/-- `create_default_layout` (main.py:812). -/
def defaultLayout : LC :=
  S "import type \x7b Metadata \x7d from \x27next\x27\nimport \x7b Inter \x7d from \x27next/font/google\x27\nimport \x27./globals.css\x27\n\nconst inter = Inter(\x7b subsets: [\x27latin\x27] \x7d)\n\nexport const metadata: Metadata = \x7b\n  title: \x27Generated App\x27,\n  description: \x27Generated by AICoder\x27,\n\x7d\n\nexport default function RootLayout(\x7b\n  children,\n\x7d: \x7b\n  children: React.ReactNode\n\x7d) \x7b\n  return (\n    <html lang=\x22en\x22>\n      <body className=\x7binter.className\x7d>\x7bchildren\x7d</body>\n    </html>\n  )\n\x7d"

/-- `create_default_globals` (main.py:837). -/
def defaultGlobals : LC :=
  S "@tailwind base;\n@tailwind components;\n@tailwind utilities;\n\n:root \x7b\n  --foreground-rgb: 0, 0, 0;\n  --background-start-rgb: 214, 219, 220;\n  --background-end-rgb: 255, 255, 255;\n\x7d\n\n@media (prefers-color-scheme: dark) \x7b\n  :root \x7b\n    --foreground-rgb: 255, 255, 255;\n    --background-start-rgb: 0, 0, 0;\n    --background-end-rgb: 0, 0, 0;\n  \x7d\n\x7d\n\nbody \x7b\n  color: rgb(var(--foreground-rgb));\n  background: linear-gradient(\n      to bottom,\n      transparent,\n      rgb(var(--background-end-rgb))\n    )\n    rgb(var(--background-start-rgb));\n\x7d"

/-- One `for part in parts` iteration of `parse_tsx_response`. -/
def tsxPart (files : Dict) (part : LC) : Dict :=
  if (pyStrip part).isEmpty then files
  else
    match splitLines part with
    | [] => files
    | l0 :: rest =>
      let f := pyStrip l0
      if (S ".tsx").isSuffixOf f || (S ".css").isSuffixOf f || (S ".js").isSuffixOf f then
        dictSet files f (fixTsxIssues (pyStrip (joinLines rest)) f)
      else files

/-- `parse_tsx_response` (main.py:243): split the coder blob on `"// "`
markers, or fall back to a default `page.tsx`, then ensure the required
`layout.tsx` and `globals.css` exist. -/
def parseTsxResponse (blob : LC) : Dict :=
  let files :=
    if hasSubstr blob (S "// ") then (pySplit blob (S "// ")).foldl tsxPart []
    else
      dictSet (dictSet (dictSet [] (S "page.tsx") (fixTsxIssues blob (S "page.tsx")))
        (S "layout.tsx") defaultLayout) (S "globals.css") defaultGlobals
  let files := if dictContains files (S "layout.tsx") then files
    else dictSet files (S "layout.tsx") defaultLayout
  if dictContains files (S "globals.css") then files
  else dictSet files (S "globals.css") defaultGlobals

/-!
The coder-side parser and validators (`src/agents/coder.py`).
-/

/-- A filename-comment delimiter line per `parse_generated_code`:
`line.strip().startswith('// ')` and `.endswith('.tsx')` or `.endswith('.css')`. -/
def isDelimLine (line : LC) : Bool :=
  (S "// ").isPrefixOf (pyStrip line) &&
    ((S ".tsx").isSuffixOf (pyStrip line) || (S ".css").isSuffixOf (pyStrip line))

/-- Loop state of `parse_generated_code`: `current_file`, `current_content`,
`files`. -/
structure PGCState where
  cur : Option LC
  content : List LC
  files : Dict

/-- `if current_file and current_content: files[current_file] = ...` (Python
truthiness: a present, nonempty filename and a nonempty line list). -/
def pgcFlush (st : PGCState) : Dict :=
  match st.cur with
  | some f =>
    if !f.isEmpty && !st.content.isEmpty then
      dictSet st.files f (pyStrip (joinLines st.content))
    else st.files
  | none => st.files

/-- One loop iteration of `parse_generated_code`. -/
def pgcStep (st : PGCState) (line : LC) : PGCState :=
  if isDelimLine line then
    { cur := some ((pyStrip line).drop 3), content := [], files := pgcFlush st }
  else
    match st.cur with
    | some f => if !f.isEmpty then { st with content := st.content ++ [line] } else st
    | none => st

/-- `parse_generated_code` (coder.py:283). -/
def parseGeneratedCode (blob : LC) : Dict :=
  pgcFlush ((splitLines blob).foldl pgcStep ⟨none, [], []⟩)

/-- Per-file validation report of `validate_code`. -/
structure VRes where
  is_valid : Bool
  errors : List LC
  warnings : List LC
deriving DecidableEq

def natStr (n : Nat) : LC := (toString n).toList

def vcMsg1 (i : Nat) : LC :=
  S "Line " ++ natStr i ++
    S ": Invalid function parameter syntax - use function Component(\x7b prop \x7d: Props) instead of function Component(: any)"

def vcMsg2 (i : Nat) : LC :=
  S "Line " ++ natStr i ++ S ": Double type annotation - remove \x27: any\x27 after proper type definition"

def vcMsg3 (i : Nat) : LC :=
  S "Line " ++ natStr i ++ S ": Possible semicolon in JSX - check for invalid syntax"

def vcMsg4 (i : Nat) : LC :=
  S "Line " ++ natStr i ++ S ": Invalid import syntax - check for misplaced semicolons"

def vcMsg5 (i : Nat) : LC :=
  S "Line " ++ natStr i ++ S ": Invalid export syntax - check for misplaced semicolons"

/-- One enumerated line of `validate_code` (the source strips the line first,
so the later `.strip()` calls are re-strips of an already stripped line). -/
def vcLine (st : VRes) (i : Nat) (line0 : LC) : VRes :=
  let line := pyStrip line0
  let st := if hasSubstr line (S "function") && hasSubstr line (S "(: any)") then
      { st with is_valid := false, errors := st.errors ++ [vcMsg1 i] } else st
  let st := if hasSubstr line (S "\x7d: \x7b") && hasSubstr line (S "\x7d: any") then
      { st with is_valid := false, errors := st.errors ++ [vcMsg2 i] } else st
  let st := if hasSubstr line (S ";") && (hasSubstr line (S "<") && hasSubstr line (S ">")) then
      (if !(S "//").isPrefixOf line && !(S "import").isPrefixOf line &&
          !(S "export").isPrefixOf line then
        { st with warnings := st.warnings ++ [vcMsg3 i] }
      else st)
    else st
  let st := if (S "import").isPrefixOf line && hasSubstr line (S ";") &&
      !(S ";").isSuffixOf line then { st with errors := st.errors ++ [vcMsg4 i] } else st
  if (S "export").isPrefixOf line && hasSubstr line (S "function") && hasSubstr line (S ";") then
    { st with errors := st.errors ++ [vcMsg5 i] }
  else st

/-- `validate_code` (coder.py:320).  Note that the last two checks append to
`errors` without clearing `is_valid`. -/
def validateCode (code : LC) : VRes :=
  ((splitLines code).enum).foldl (fun st p => vcLine st (p.1 + 1) p.2) ⟨true, [], []⟩

/-- Aggregated validation report of `validate_generated_files`. -/
structure AllV where
  overall_valid : Bool
  file_validations : List (LC × VRes)
  total_errors : Nat
  total_warnings : Nat
deriving DecidableEq

/-- One file of the `validate_generated_files` loop: error counts are added
only when the file's `is_valid` is false. -/
def vgfStep (st : AllV) (p : LC × LC) : AllV :=
  let fv := validateCode p.2
  let st := { st with file_validations := st.file_validations ++ [(p.1, fv)] }
  let st := if !fv.is_valid then
      { st with overall_valid := false, total_errors := st.total_errors + fv.errors.length }
    else st
  { st with total_warnings := st.total_warnings + fv.warnings.length }

/-- `validate_generated_files` (coder.py:367). -/
def validateGeneratedFiles (files : Dict) : AllV := files.foldl vgfStep ⟨true, [], 0, 0⟩

/-!
`validate_tsx_compilation` (main.py:1087).  The `json.loads` inspection of
`package.json` is a Python-stdlib call outside this repository; it is
abstracted by the two parameters `pjErrs`/`pjOk`, which can only append error
messages and clear the success flag — exactly the effect shapes the source's
`try/except` block allows.
-/

structure TVRes where
  compilation_errors : List LC
  warnings : List LC
  success : Bool
deriving DecidableEq

def addErr (st : TVRes) (m : LC) : TVRes :=
  { st with compilation_errors := st.compilation_errors ++ [m], success := false }

def addWarn (st : TVRes) (m : LC) : TVRes := { st with warnings := st.warnings ++ [m] }

def requiredTsxFiles : List LC := [S "page.tsx", S "layout.tsx", S "package.json"]

/-- Check: missing default export in a required file (error). -/
def tsxCheckRequiredExport (name c : LC) (st : TVRes) : TVRes :=
  if name = S "page.tsx" || name = S "layout.tsx" then
    (if !hasSubstr c (S "export default function") && !hasSubstr c (S "export default") then
      addErr st (S "CRITICAL: Missing default export in required file " ++ name)
    else st)
  else st

/-- Check: `React` used without an explicit import (warning). -/
def tsxCheckReactImport (name c : LC) (st : TVRes) : TVRes :=
  if hasSubstr c (S "React") && !hasSubstr c (S "import React") then
    addWarn st (S "Consider explicit React import in " ++ name)
  else st

/-- Check: missing default export in any file (error). -/
def tsxCheckDefaultExport (name c : LC) (st : TVRes) : TVRes :=
  if !hasSubstr c (S "export default function") && !hasSubstr c (S "export default") then
    addErr st (S "Missing default export in " ++ name)
  else st

/-- Check: component may not return JSX (warning). -/
def tsxCheckJsxReturn (name c : LC) (st : TVRes) : TVRes :=
  if !hasSubstr c (S "return (") && !hasSubstr c (S "return <") then
    addWarn st (S "Component may not return JSX in " ++ name)
  else st

/-- Check: class component without the client directive (error). -/
def tsxCheckClassClient (name c : LC) (st : TVRes) : TVRes :=
  if hasSubstr c (S "class ") && hasSubstr c (S "extends Component") &&
      !hasSubstr c (S "\x22use client\x22") then
    addErr st (S "Class component missing \x27use client\x27 directive in " ++ name)
  else st

/-- Check: `@/` import alias (error). -/
def tsxCheckAlias (name c : LC) (st : TVRes) : TVRes :=
  if hasSubstr c (S "@/components/") then
    addErr st (S "Using @/ alias instead of relative paths in " ++ name)
  else st

/-- Check: `ErrorBoundary` class without the client directive (error). -/
def tsxCheckErrorBoundary (name c : LC) (st : TVRes) : TVRes :=
  if hasSubstr c (S "ErrorBoundary") && hasSubstr c (S "class") &&
      !hasSubstr c (S "\x22use client\x22") then
    addErr st (S "ErrorBoundary missing \x27use client\x27 directive in " ++ name)
  else st

/-- Check: layout.tsx must be a server component exporting metadata (errors). -/
def tsxCheckLayoutRules (name c : LC) (st : TVRes) : TVRes :=
  if name = S "layout.tsx" then
    (let st := if hasSubstr c (S "\x22use client\x22") then
        addErr st (S "CRITICAL: layout.tsx cannot use \x27use client\x27 - must be server component")
      else st
     if !hasSubstr c (S "export const metadata") then
       addErr st (S "CRITICAL: layout.tsx must export metadata")
     else st)
  else st

/-- Check: client component exporting metadata (error). -/
def tsxCheckClientMetadata (name c : LC) (st : TVRes) : TVRes :=
  if hasSubstr c (S "\x22use client\x22") && hasSubstr c (S "export const metadata") then
    addErr st (S "CRITICAL: Client component " ++ name ++ S " cannot export metadata")
  else st

/-- The per-file `.tsx` pattern battery of `validate_tsx_compilation`, its
checks applied in source order. -/
def tsxFileCheck (st : TVRes) (p : LC × LC) : TVRes :=
  if (S ".tsx").isSuffixOf p.1 then
    tsxCheckClientMetadata p.1 p.2 (tsxCheckLayoutRules p.1 p.2 (tsxCheckErrorBoundary p.1 p.2
      (tsxCheckAlias p.1 p.2 (tsxCheckClassClient p.1 p.2 (tsxCheckJsxReturn p.1 p.2
        (tsxCheckDefaultExport p.1 p.2 (tsxCheckReactImport p.1 p.2
          (tsxCheckRequiredExport p.1 p.2 st))))))))
  else st

def validateTsxCompilation (pjErrs : LC → List LC) (pjOk : LC → Bool) (files : Dict) : TVRes :=
  let st : TVRes := ⟨[], [], true⟩
  let missing := requiredTsxFiles.filter (fun f => !dictContains files f)
  let st := if !missing.isEmpty then
      { st with
        compilation_errors :=
          st.compilation_errors ++ [S "Missing required files: " ++ List.intercalate (S ", ") missing]
        success := false }
    else st
  let st := if dictContains files (S "package.json") then
      let content := ((files.lookup (S "package.json")).getD [])
      { st with
        compilation_errors := st.compilation_errors ++ pjErrs content
        success := st.success && pjOk content }
    else st
  files.foldl tsxFileCheck st

/-!
The workflow state machine (`src/agents/orchestrator.py`).  The shared state
dict is modelled as a structure holding the keys those functions read or
write; `none` models an absent key (and, for `next_agent`, Python `None`).
The `try/except` wrapper of `orchestrator_node` is elided: every embedded
operation is total, so the except-branch is unreachable in the model.
Progress fractions are modelled as rationals.
-/

structure WMeta where
  current_step : Nat
  total_steps : Nat
  progress : ℚ
  estimated_completion : LC
deriving DecidableEq

structure PyState where
  user_input : Option LC
  workflow_status : Option LC
  agent_results : List (LC × List (LC × LC))
  error : Option LC
  next_agent : Option LC
  orchestration_notes : Option LC
  workflow_metadata : Option WMeta
  previous_status : Option LC
  paused_at : Option LC
  resumed_at : Option LC
deriving DecidableEq

/-- A state carrying only a workflow status, agent results and an error. -/
def stateOf (ws : Option LC) (ar : List (LC × List (LC × LC))) (er : Option LC) : PyState :=
  ⟨none, ws, ar, er, none, none, none, none, none, none⟩

/-- `agent_results.get(agent, {}).get(flag)`. -/
def agentFlag (st : PyState) (agent flag : LC) : Option LC :=
  ((st.agent_results.lookup agent).getD []).lookup flag

/-- The result record of `determine_next_action`. -/
structure NextAction where
  status : LC
  agent : Option LC
  step : Nat
  notes : LC
deriving DecidableEq

/-- The string values of the `WorkflowStatus` enumeration. -/
def workflowStatusValues : List LC :=
  [S "initialized", S "planning", S "coding", S "testing", S "enhancing",
    S "completed", S "failed", S "paused"]

/-- `determine_next_action` (orchestrator.py:81). -/
def determineNextAction (cs : LC) (st : PyState) : NextAction :=
  if cs = S "initialized" then
    ⟨S "planning", some (S "planner"), 1, S "Initializing project planning phase"⟩
  else if cs = S "planning" then
    if agentFlag st (S "planner") (S "planning_status") = some (S "completed") then
      ⟨S "coding", some (S "coder"), 2, S "Planning complete, proceeding to code generation"⟩
    else ⟨S "planning", some (S "planner"), 1, S "Continuing planning phase"⟩
  else if cs = S "coding" then
    if agentFlag st (S "coder") (S "code_generation_status") = some (S "completed") then
      ⟨S "testing", some (S "tester"), 3, S "Code generation complete, proceeding to testing"⟩
    else ⟨S "coding", some (S "coder"), 2, S "Continuing code generation"⟩
  else if cs = S "testing" then
    if agentFlag st (S "tester") (S "testing_status") = some (S "completed") then
      ⟨S "enhancing", some (S "enhancer"), 4, S "Testing complete, proceeding to enhancement"⟩
    else ⟨S "testing", some (S "tester"), 3, S "Continuing testing phase"⟩
  else if cs = S "enhancing" then
    if agentFlag st (S "enhancer") (S "enhancement_status") = some (S "completed") then
      ⟨S "completed", none, 5, S "All phases complete"⟩
    else ⟨S "enhancing", some (S "enhancer"), 4, S "Continuing enhancement phase"⟩
  else ⟨S "failed", none, 0, S "Unknown workflow status"⟩

/-- `calculate_progress` (orchestrator.py:181). -/
def calculateProgress (cs : LC) : ℚ :=
  if cs = S "initialized" then 0
  else if cs = S "planning" then 0.2
  else if cs = S "coding" then 0.4
  else if cs = S "testing" then 0.6
  else if cs = S "enhancing" then 0.8
  else if cs = S "completed" then 1
  else if cs = S "failed" then 0
  else 0

/-- `estimate_completion_time` (orchestrator.py:203). -/
def estimateCompletionTime (st : PyState) : LC :=
  let step := (st.workflow_metadata.map fun m => m.current_step).getD 1
  if step = 1 then S "10-15 minutes"
  else if step = 2 then S "5-10 minutes"
  else if step = 3 then S "3-5 minutes"
  else if step = 4 then S "2-3 minutes"
  else S "Less than 1 minute"

/-- `orchestrator_node` (orchestrator.py:37). -/
def orchestratorNode (st : PyState) : PyState :=
  let cs := st.workflow_status.getD (S "initialized")
  let na := determineNextAction cs st
  { st with
    workflow_status := some na.status
    next_agent := na.agent
    orchestration_notes := some na.notes
    workflow_metadata := some ⟨na.step, 6, calculateProgress cs, estimateCompletionTime st⟩ }

/-- `pause_workflow` (orchestrator.py:259). -/
def pauseWorkflow (st : PyState) : PyState :=
  { st with workflow_status := some (S "paused"), paused_at := some (S "current_timestamp") }

/-- `resume_workflow` (orchestrator.py:274): note it reads a `previous_status`
key that `pause_workflow` never wrote. -/
def resumeWorkflow (st : PyState) : PyState :=
  { st with
    workflow_status := some (st.previous_status.getD (S "initialized"))
    resumed_at := some (S "current_timestamp") }

/-- Modelled from the spec (§8 round-trip property): `join_with_markers`
joins each file as a `// filename` marker line followed by the body, with the
files separated by single newlines.  No such helper exists in the source; the
spec states the property in terms of it. -/
def specJoinWithMarkers : List (LC × LC) → LC
  | [] => []
  | [(n, c)] => S "// " ++ n ++ '\n' :: c
  | (n, c) :: fs => S "// " ++ n ++ '\n' :: c ++ '\n' :: specJoinWithMarkers fs

/-!
Claims about the workflow state machine.
-/

/-- A coding-phase state whose coder reports completion and that carries an
`error` value. -/
def erroredCodingState : PyState :=
  stateOf (some (S "coding")) [(S "coder", [(S "code_generation_status", S "completed")])]
    (some (S "boom"))

/-- C6 (counterexample): a state with `error` present, status `coding` and a
completed coder is advanced by `orchestrator_node` to `testing`, not `failed`
— the presence of `error` does not force `FAILED`. -/
theorem orchestratorNode_ignores_error_at_coding :
    erroredCodingState.error = some (S "boom") ∧
    (orchestratorNode erroredCodingState).workflow_status = some (S "testing") ∧
    (orchestratorNode erroredCodingState).workflow_status ≠ some (S "failed") := by
  decide

/-- C6 (amended): `orchestrator_node` never inspects the `error` field — the
resulting workflow status is unchanged by the field's presence or value, and
the field is passed through untouched.  The status only depends on
`workflow_status` and the completion flags in `agent_results`. -/
theorem orchestratorNode_error_independent (st : PyState) (e : Option LC) :
    (orchestratorNode { st with error := e }).workflow_status =
      (orchestratorNode st).workflow_status ∧
    (orchestratorNode { st with error := e }).error = e :=
  ⟨rfl, rfl⟩

/-- An initialized state with empty `agent_results`: no agent has reported
any completion flag. -/
def freshInitializedState : PyState := stateOf (some (S "initialized")) [] none

/-- C2 (counterexample): from `initialized` with no completion flag reported
at all, `determine_next_action` does not remain in `initialized` (as the
claim's "otherwise" branch requires) but advances to `planning`. -/
theorem determineNextAction_initialized_advances_without_flag :
    freshInitializedState.agent_results = [] ∧
    (determineNextAction (S "initialized") freshInitializedState).status = S "planning" ∧
    (determineNextAction (S "initialized") freshInitializedState).status ≠ S "initialized" := by
  decide

/-- C2 (amended): the transition table of `determine_next_action`.  From
`planning`, `coding`, `testing` and `enhancing` the machine advances to the
next status and agent exactly when the associated agent's completion flag
equals `"completed"`, and otherwise stays re-invoking the same agent; from
`initialized` it advances to `planning`/`planner` unconditionally (there is
no completion flag that could keep it waiting). -/
theorem determineNextAction_transition_table (st : PyState) :
    determineNextAction (S "initialized") st =
      ⟨S "planning", some (S "planner"), 1, S "Initializing project planning phase"⟩ ∧
    determineNextAction (S "planning") st =
      (if agentFlag st (S "planner") (S "planning_status") = some (S "completed") then
        ⟨S "coding", some (S "coder"), 2, S "Planning complete, proceeding to code generation"⟩
      else ⟨S "planning", some (S "planner"), 1, S "Continuing planning phase"⟩) ∧
    determineNextAction (S "coding") st =
      (if agentFlag st (S "coder") (S "code_generation_status") = some (S "completed") then
        ⟨S "testing", some (S "tester"), 3, S "Code generation complete, proceeding to testing"⟩
      else ⟨S "coding", some (S "coder"), 2, S "Continuing code generation"⟩) ∧
    determineNextAction (S "testing") st =
      (if agentFlag st (S "tester") (S "testing_status") = some (S "completed") then
        ⟨S "enhancing", some (S "enhancer"), 4, S "Testing complete, proceeding to enhancement"⟩
      else ⟨S "testing", some (S "tester"), 3, S "Continuing testing phase"⟩) ∧
    determineNextAction (S "enhancing") st =
      (if agentFlag st (S "enhancer") (S "enhancement_status") = some (S "completed") then
        ⟨S "completed", none, 5, S "All phases complete"⟩
      else ⟨S "enhancing", some (S "enhancer"), 4, S "Continuing enhancement phase"⟩) :=
  ⟨rfl, rfl, rfl, rfl, rfl⟩

/-- A state whose only populated key is `workflow_status: "coding"`; in
particular it has no `previous_status` key. -/
def codingOnlyState : PyState := stateOf (some (S "coding")) [] none

/-- C9: `pause_workflow` never records the pre-pause status, so
`resume_workflow` falls back to its `"initialized"` default: pausing and
resuming a coding-phase state yields `initialized`, not `coding`. -/
theorem resume_after_pause_loses_status :
    codingOnlyState.workflow_status = some (S "coding") ∧
    codingOnlyState.previous_status = none ∧
    (resumeWorkflow (pauseWorkflow codingOnlyState)).workflow_status = some (S "initialized") ∧
    S "initialized" ≠ S "coding" := by
  decide

/-- C10: for every status outside the five actively handled values,
`determine_next_action` returns the fixed default (`failed`, no agent,
step 0), and for every status and state whatsoever the returned status is
one of the `WorkflowStatus` enumeration values. -/
theorem determineNextAction_default_total :
    (∀ (cs : LC) (st : PyState),
        cs ∉ [S "initialized", S "planning", S "coding", S "testing", S "enhancing"] →
        determineNextAction cs st = ⟨S "failed", none, 0, S "Unknown workflow status"⟩) ∧
    ∀ (cs : LC) (st : PyState), (determineNextAction cs st).status ∈ workflowStatusValues := by
  constructor
  · intro cs st h
    simp only [List.mem_cons, List.not_mem_nil, or_false, not_or] at h
    obtain ⟨h1, h2, h3, h4, h5⟩ := h
    simp [determineNextAction, h1, h2, h3, h4, h5]
  · intro cs st
    unfold determineNextAction
    split_ifs <;> simp [workflowStatusValues]

/-- C10 (witness): the `paused` status itself hits the default case — a
paused workflow routed through the orchestrator is marked failed. -/
theorem determineNextAction_default_total_witness :
    S "paused" ∉ [S "initialized", S "planning", S "coding", S "testing", S "enhancing"] ∧
    determineNextAction (S "paused") freshInitializedState =
      ⟨S "failed", none, 0, S "Unknown workflow status"⟩ :=
  ⟨by decide, determineNextAction_default_total.1 (S "paused") freshInitializedState (by decide)⟩

/-!
C1: idempotence of the repair pipeline.
-/

/-- An import line with a long semicolon run: `final_syntax_cleanup` removes
only two semicolons per pass, so five passes cannot reach a fixpoint. -/
def capCounterexample : LC := S "import x ;;;;;;;;;;;;; y"

/-- C1 (counterexample): the repair pipeline is not idempotent on inputs
whose fixpoint lies beyond the 5-pass cap — rerunning
`force_syntax_correction` on its own output changes the text again. -/
theorem forceSyntaxCorrection_not_idempotent_at_cap :
    forceSyntaxCorrection (S "a.tsx") (forceSyntaxCorrection (S "a.tsx") capCounterexample) ≠
      forceSyntaxCorrection (S "a.tsx") capCounterexample := by
  decide

/-- C1 (amended): `repair(repair(x)) == repair(x)` holds exactly when the
output of the fixpoint loop is indeed a fixpoint of one repair pass — i.e.
whenever the loop stopped because a pass made no change (or the capped fifth
pass happened to land on a fixpoint).  When the 5-pass cap is exhausted while
passes are still changing the text, idempotence can fail, as the
counterexample shows. -/
theorem forceSyntaxCorrection_idempotent_of_fixpoint (filename x : LC)
    (h : onePass filename (forceSyntaxCorrection filename x) = forceSyntaxCorrection filename x) :
    forceSyntaxCorrection filename (forceSyntaxCorrection filename x) =
      forceSyntaxCorrection filename x := by
  have hfix : ∀ (n : Nat) (y : LC), onePass filename y = y → fscLoop filename n y = y := by
    intro n y hy
    cases n with
    | zero => rfl
    | succ n => simp [fscLoop, hy]
  exact hfix 5 _ h

/-- C1 (witness): a benign input that the pipeline leaves unchanged. -/
theorem forceSyntaxCorrection_idempotent_of_fixpoint_witness :
    onePass (S "a.tsx") (forceSyntaxCorrection (S "a.tsx") (S "hello")) =
      forceSyntaxCorrection (S "a.tsx") (S "hello") ∧
    forceSyntaxCorrection (S "a.tsx") (forceSyntaxCorrection (S "a.tsx") (S "hello")) =
      forceSyntaxCorrection (S "a.tsx") (S "hello") :=
  ⟨by decide, forceSyntaxCorrection_idempotent_of_fixpoint (S "a.tsx") (S "hello") (by decide)⟩

/-!
Substring machinery shared by several claims: `hasSubstr` agrees with
`List.IsInfix`, and an occurrence of a newline-free needle in a text split by
a newline must lie entirely on one side of it.
-/

theorem hasSubstr_infix_iff {s t : LC} : hasSubstr s t = true ↔ t <:+: s := by
  induction s with
  | nil =>
    simp only [hasSubstr, Bool.or_false, List.isPrefixOf_iff_prefix, List.prefix_nil,
      List.infix_nil]
  | cons c s ih =>
    simp only [hasSubstr, Bool.or_eq_true, List.isPrefixOf_iff_prefix, ih,
      List.infix_cons_iff]

theorem hasSubstr_eq_false_iff {s t : LC} : hasSubstr s t = false ↔ ¬t <:+: s := by
  rw [← hasSubstr_infix_iff]
  simp

theorem prefix_append_cons_of_not_mem {t x y : LC} {c : Char} (hc : c ∉ t)
    (h : t <+: x ++ c :: y) : t <+: x := by
  induction t generalizing x with
  | nil => exact List.nil_prefix
  | cons b t ih =>
    cases x with
    | nil =>
      rw [List.nil_append] at h
      obtain ⟨hb, -⟩ := List.cons_prefix_cons.mp h
      exact absurd (hb ▸ List.mem_cons_self b t) hc
    | cons a x =>
      rw [List.cons_append] at h
      obtain ⟨hb, ht⟩ := List.cons_prefix_cons.mp h
      exact List.cons_prefix_cons.mpr
        ⟨hb, ih (fun hm => hc (List.mem_cons_of_mem _ hm)) ht⟩

theorem infix_append_cons_split {t x y : LC} {c : Char} (hc : c ∉ t)
    (h : t <:+: x ++ c :: y) : t <:+: x ∨ t <:+: y := by
  induction x with
  | nil =>
    rw [List.nil_append] at h
    rcases List.infix_cons_iff.mp h with hp | hi
    · rcases List.prefix_cons_iff.mp hp with rfl | ⟨t', rfl, -⟩
      · exact Or.inl List.nil_infix
      · exact absurd (List.mem_cons_self _ _) hc
    · exact Or.inr hi
  | cons a x ih =>
    rw [List.cons_append] at h
    rcases List.infix_cons_iff.mp h with hp | hi
    · rcases List.prefix_cons_iff.mp hp with rfl | ⟨t', rfl, ht'⟩
      · exact Or.inl List.nil_infix
      · have hx : t' <+: x :=
          prefix_append_cons_of_not_mem (fun hm => hc (List.mem_cons_of_mem _ hm)) ht'
        exact Or.inl (List.IsPrefix.isInfix (List.cons_prefix_cons.mpr ⟨rfl, hx⟩))
    · rcases ih hi with h1 | h2
      · exact Or.inl (List.infix_cons_iff.mpr (Or.inr h1))
      · exact Or.inr h2

theorem pyFindSub_prefix_drop {t : LC} :
    ∀ {s : LC} {i : Nat}, pyFindSub s t = some i → t <+: s.drop i := by
  intro s
  induction s with
  | nil =>
    intro i h
    rw [pyFindSub] at h
    split at h
    · next hp =>
      obtain rfl : (0 : Nat) = i := Option.some.inj h
      exact List.isPrefixOf_iff_prefix.mp hp
    · simp at h
  | cons c s ih =>
    intro i h
    rw [pyFindSub] at h
    split at h
    · next hp =>
      obtain rfl : (0 : Nat) = i := Option.some.inj h
      exact List.isPrefixOf_iff_prefix.mp hp
    · next hp =>
      obtain ⟨j, hj, rfl⟩ := Option.map_eq_some'.mp h
      exact ih hj

/-- `ensureMetadata` always leaves a metadata declaration in its output. -/
theorem ensureMetadata_has_metadata (s : LC) :
    hasSubstr (ensureMetadata s) (S "export const metadata") = true := by
  have hpref : (S "export const metadata") <+: metaExportBlock := by decide
  rw [ensureMetadata]
  split
  · next h => exact h
  · next h =>
    split
    · next i hi =>
      refine hasSubstr_infix_iff.mpr (List.IsInfix.trans hpref.isInfix ?_)
      have : s.take i ++ S "\n\n" ++ metaExportBlock ++ s.drop i =
          (s.take i ++ S "\n\n") ++ metaExportBlock ++ s.drop i := by
        simp [List.append_assoc]
      rw [this]
      exact List.infix_append _ _ _
    · refine hasSubstr_infix_iff.mpr (List.IsInfix.trans hpref.isInfix ?_)
      exact ((metaExportBlock).prefix_append (S "\n\n" ++ s)).isInfix

/-- Inserting the metadata block cannot create a new occurrence of a
newline-free needle that occurs neither in the text nor in the block. -/
theorem ensureMetadata_preserves_absence {s t : LC} (hnl : '\n' ∉ t)
    (hmb : ¬t <:+: metaExportBlock) (hs : ¬t <:+: s) : ¬t <:+: ensureMetadata s := by
  rw [ensureMetadata]
  split
  · exact hs
  · next hmeta =>
    split
    · next i hi =>
      obtain ⟨z, hz⟩ := pyFindSub_prefix_drop hi
      intro hout
      have hshape : s.take i ++ S "\n\n" ++ metaExportBlock ++ s.drop i =
          s.take i ++ '\n' :: ('\n' :: (metaExportBlock ++ s.drop i)) := by
        simp [S, List.append_assoc]
      rw [hshape] at hout
      rcases infix_append_cons_split hnl hout with h1 | h1
      · exact hs (h1.trans (s.take_prefix i).isInfix)
      · have h2 : t <:+: metaExportBlock ++ s.drop i := by
          rcases infix_append_cons_split (x := []) hnl h1 with h' | h'
        
          · exact absurd (List.infix_nil.mp h') (by rintro rfl; exact hs List.nil_infix)
          · exact h'
        have hdrop : metaExportBlock ++ s.drop i =
            metaExportBlock ++ '\n' :: ('\n' :: z) := by
          rw [← hz]
          simp [S]
        rw [hdrop] at h2
        rcases infix_append_cons_split hnl h2 with h3 | h3
        · exact hmb h3
        · rcases infix_append_cons_split (x := []) hnl h3 with h' | h'
          · exact absurd (List.infix_nil.mp h') (by rintro rfl; exact hs List.nil_infix)
          · refine hs (h'.trans ?_)
            have hzs : z <:+ s := (List.suffix_append (S "\n\n") z).trans (hz ▸ s.drop_suffix i)
            exact hzs.isInfix
    · intro hout
      have hshape : metaExportBlock ++ S "\n\n" ++ s =
          metaExportBlock ++ '\n' :: ('\n' :: s) := by
        simp [S, List.append_assoc]
      rw [hshape] at hout
      rcases infix_append_cons_split hnl hout with h1 | h1
      · exact hmb h1
      · rcases infix_append_cons_split (x := []) hnl h1 with h' | h'
        · exact absurd (List.infix_nil.mp h') (by rintro rfl; exact hs List.nil_infix)
        · exact hs h'

/-!
C7: the layout-role repair pass, interactivity directive and metadata.
-/

/-- A layout body on which removing the directive splices the surrounding
text into a fresh `"use client"` occurrence. -/
def spliceInput : LC := S "\x22use cl\x22use client\x22ient\x22"

/-- C7 (counterexample): this layout body contains the interactivity
directive and no metadata declaration, yet after one role-specific repair
pass the output still contains the directive — `re.sub` removed the inner
occurrence and glued the remaining fragments into a new one. -/
theorem layout_fix_can_splice_directive :
    hasSubstr spliceInput (S "\x22use client\x22") = true ∧
    hasSubstr spliceInput (S "export const metadata") = false ∧
    hasSubstr (aggressiveFixNextjs (S "layout.tsx") spliceInput)
      (S "\x22use client\x22") = true := by
  decide

/-- C7 (amended): for a layout-role body containing the interactivity
directive and no metadata declaration, one role-specific repair pass always
yields output containing a metadata declaration; the output is free of the
directive provided the leftmost non-overlapping removals actually eliminate
every occurrence (removals can splice fragments into a new occurrence, as the
counterexample shows — e.g. they cannot when the scrubbed text has none). -/
theorem layout_fix_metadata_and_directive (c : LC)
    (hdir : hasSubstr c (S "\x22use client\x22") = true)
    (hnometa : hasSubstr c (S "export const metadata") = false) :
    hasSubstr (aggressiveFixNextjs (S "layout.tsx") c) (S "export const metadata") = true ∧
    (hasSubstr (scrubUseClient (layoutSignatureFix c)) (S "\x22use client\x22") = false →
      hasSubstr (aggressiveFixNextjs (S "layout.tsx") c) (S "\x22use client\x22") = false) := by
  have hred : aggressiveFixNextjs (S "layout.tsx") c =
      ensureMetadata (scrubUseClient (layoutSignatureFix c)) := rfl
  constructor
  · rw [hred]
    exact ensureMetadata_has_metadata _
  · intro h
    rw [hred, hasSubstr_eq_false_iff]
    refine ensureMetadata_preserves_absence (by decide) ?_ (hasSubstr_eq_false_iff.mp h)
    rw [← hasSubstr_eq_false_iff]
    decide

/-- A typical broken layout body: directive present, metadata absent. -/
def plainClientLayout : LC :=
  S "\x22use client\x22\nexport default function RootLayout() \x7b\n  return null\n\x7d"

/-- C7 (witness): the amended theorem applied to a concrete body. -/
theorem layout_fix_metadata_and_directive_witness :
    hasSubstr plainClientLayout (S "\x22use client\x22") = true ∧
    hasSubstr plainClientLayout (S "export const metadata") = false ∧
    hasSubstr (scrubUseClient (layoutSignatureFix plainClientLayout))
      (S "\x22use client\x22") = false ∧
    hasSubstr (aggressiveFixNextjs (S "layout.tsx") plainClientLayout)
      (S "export const metadata") = true ∧
    hasSubstr (aggressiveFixNextjs (S "layout.tsx") plainClientLayout)
      (S "\x22use client\x22") = false :=
  ⟨by decide, by decide, by decide,
    (layout_fix_metadata_and_directive plainClientLayout (by decide) (by decide)).1,
    (layout_fix_metadata_and_directive plainClientLayout (by decide) (by decide)).2 (by decide)⟩

/-!
Line-splitting lemmas shared by the validator and parser claims.
-/

theorem splitLines_ne_nil (l : LC) : splitLines l ≠ [] := by
  cases l with
  | nil => simp [splitLines]
  | cons c cs =>
    rw [splitLines]
    rcases splitLines cs with - | ⟨a, as⟩
    · simp
    · by_cases hc : c = '\n' <;> simp [hc]

theorem splitLines_append (a b : LC) :
    splitLines (a ++ '\n' :: b) = splitLines a ++ splitLines b := by
  induction a with
  | nil =>
    show splitLines ('\n' :: b) = [[]] ++ splitLines b
    rw [splitLines]
    rcases h : splitLines b with - | ⟨l, ls⟩
    · exact absurd h (splitLines_ne_nil b)
    · simp
  | cons c cs ih =>
    rw [List.cons_append, splitLines, ih, splitLines]
    rcases h : splitLines cs with - | ⟨l, ls⟩
    · exact absurd h (splitLines_ne_nil cs)
    · rcases hb : splitLines b with - | ⟨m, ms⟩
      · exact absurd hb (splitLines_ne_nil b)
      · by_cases hc : c = '\n' <;> simp [hc]

theorem splitLines_of_no_newline {l : LC} (h : '\n' ∉ l) : splitLines l = [l] := by
  induction l with
  | nil => rfl
  | cons c cs ih =>
    rw [splitLines, ih (fun hm => h (List.mem_cons_of_mem _ hm))]
    have hc : ¬c = '\n' := fun hc => h (hc ▸ List.mem_cons_self _ _)
    simp [hc]

theorem joinLines_singleton (x : LC) : joinLines [x] = x := by
  simp [joinLines, List.intercalate]

theorem joinLines_cons_cons (x y : LC) (zs : List LC) :
    joinLines (x :: y :: zs) = x ++ '\n' :: joinLines (y :: zs) := by
  simp [joinLines, List.intercalate, List.intersperse]

theorem joinLines_splitLines (l : LC) : joinLines (splitLines l) = l := by
  induction l with
  | nil => rfl
  | cons c cs ih =>
    rw [splitLines]
    rcases h : splitLines cs with - | ⟨a, as⟩
    · exact absurd h (splitLines_ne_nil cs)
    · rw [h] at ih
      show joinLines (if c = '\n' then [] :: a :: as else (c :: a) :: as) = c :: cs
      by_cases hc : c = '\n'
      · subst hc
        rw [if_pos rfl, joinLines_cons_cons, ih, List.nil_append]
      · rw [if_neg hc]
        cases as with
        | nil =>
          rw [joinLines_singleton] at ih ⊢
          rw [← ih]
        | cons b bs =>
          rw [joinLines_cons_cons] at ih ⊢
          rw [List.cons_append, ih]

/-!
C4: validator monotonicity.
-/

/-- `validate_code` on a text extended with one extra newline-free line runs
the per-line checks once more, on that line. -/
theorem validateCode_snoc_line (c b : LC) (hb : '\n' ∉ b) :
    validateCode (c ++ '\n' :: b) =
      vcLine (validateCode c) ((splitLines c).length + 1) b := by
  rw [validateCode, validateCode, splitLines_append, splitLines_of_no_newline hb,
    List.enum_append, List.foldl_append]
  simp [List.enumFrom]

/-- The error count a file contributes to `total_errors`: counted only when
the file is invalid. -/
def fileErrCount (p : LC × LC) : Nat :=
  if (validateCode p.2).is_valid then 0 else (validateCode p.2).errors.length

theorem vgf_foldl_overall (files : Dict) (st : AllV) :
    (files.foldl vgfStep st).overall_valid =
      (st.overall_valid && files.all fun p => (validateCode p.2).is_valid) := by
  induction files generalizing st with
  | nil => simp
  | cons p fs ih =>
    rw [List.foldl_cons, ih, List.all_cons, ← Bool.and_assoc]
    have hst : (vgfStep st p).overall_valid = (st.overall_valid && (validateCode p.2).is_valid) := by
      rw [vgfStep]
      cases h : (validateCode p.2).is_valid <;> simp [h]
    rw [hst]

theorem vgf_foldl_errors (files : Dict) (st : AllV) :
    (files.foldl vgfStep st).total_errors =
      st.total_errors + (files.map fileErrCount).sum := by
  induction files generalizing st with
  | nil => simp
  | cons p fs ih =>
    rw [List.foldl_cons, ih, List.map_cons, List.sum_cons]
    have hst : (vgfStep st p).total_errors = st.total_errors + fileErrCount p := by
      rw [vgfStep, fileErrCount]
      cases h : (validateCode p.2).is_valid <;> simp [h]
    rw [hst]
    omega

/-- A clean one-file set. -/
def c4Base : Dict := [(S "a.tsx", S "const a = 1")]

/-- The same set with a structural import-syntax violation appended to the
file (a misplaced semicolon the validator itself flags as an error). -/
def c4Bad : Dict := [(S "a.tsx", S "const a = 1\nimport \x7b x \x7d; from z")]

/-- C4 (counterexample): adding an import-syntax structural violation to an
otherwise-valid file set leaves `overall_valid` true and `total_errors` at 0:
`validate_code` appends the error message without clearing `is_valid`, and
`validate_generated_files` only counts errors of invalid files. -/
theorem validator_import_error_not_counted :
    (validateGeneratedFiles c4Base).overall_valid = true ∧
    (validateCode (S "const a = 1\nimport \x7b x \x7d; from z")).errors ≠ [] ∧
    (validateGeneratedFiles c4Bad).overall_valid = true ∧
    (validateGeneratedFiles c4Bad).total_errors = 0 := by
  decide

/-- The canonical validity-clearing violation line. -/
def badFnLine : LC := S "function Component(: any)"

/-- C4 (amended): monotonicity holds for the violation kinds that clear
`is_valid` (invalid function-parameter syntax, double type annotation):
appending such a line to any file of an overall-valid set flips
`overall_valid` to false and strictly increases `total_errors`.  Import- and
export-syntax violations are appended to the per-file error list without
clearing `is_valid`, and errors of still-valid files are not counted into
`total_errors`, so for those the claim fails (see the counterexample). -/
theorem validator_monotone_for_validity_violations (xs ys : Dict) (n c : LC)
    (h : (validateGeneratedFiles (xs ++ (n, c) :: ys)).overall_valid = true) :
    (validateGeneratedFiles (xs ++ (n, c ++ '\n' :: badFnLine) :: ys)).overall_valid = false ∧
    (validateGeneratedFiles (xs ++ (n, c) :: ys)).total_errors <
      (validateGeneratedFiles (xs ++ (n, c ++ '\n' :: badFnLine) :: ys)).total_errors := by
  have hbad : ∀ (st : VRes) (i : Nat),
      vcLine st i badFnLine = ⟨false, st.errors ++ [vcMsg1 i], st.warnings⟩ :=
    fun st i => rfl
  have hvc : validateCode (c ++ '\n' :: badFnLine) =
      ⟨false, (validateCode c).errors ++ [vcMsg1 ((splitLines c).length + 1)],
        (validateCode c).warnings⟩ := by
    rw [validateCode_snoc_line c badFnLine (by decide), hbad]
  rw [validateGeneratedFiles, vgf_foldl_overall] at h
  rw [Bool.true_and] at h
  have hzero : ((xs ++ (n, c) :: ys).map fileErrCount).sum = 0 := by
    refine List.sum_eq_zero ?_
    intro e he
    obtain ⟨p, hp, rfl⟩ := List.mem_map.mp he
    rw [fileErrCount, if_pos (List.all_eq_true.mp h p hp)]
  constructor
  · rw [validateGeneratedFiles, vgf_foldl_overall, Bool.true_and, List.all_append,
      List.all_cons]
    simp [hvc]
  · rw [validateGeneratedFiles, validateGeneratedFiles, vgf_foldl_errors, vgf_foldl_errors,
      hzero, List.map_append, List.map_cons, List.sum_append, List.sum_cons]
    have hcnt : fileErrCount (n, c ++ '\n' :: badFnLine) =
        (validateCode c).errors.length + 1 := by
      rw [fileErrCount, hvc]
      simp
    rw [hcnt]
    omega

/-- C4 (witness): the amended monotonicity applied to a concrete clean set. -/
theorem validator_monotone_for_validity_violations_witness :
    (validateGeneratedFiles [(S "a.tsx", S "const a = 1")]).overall_valid = true ∧
    (validateGeneratedFiles
      [(S "a.tsx", S "const a = 1" ++ '\n' :: badFnLine)]).overall_valid = false ∧
    (validateGeneratedFiles [(S "a.tsx", S "const a = 1")]).total_errors <
      (validateGeneratedFiles
        [(S "a.tsx", S "const a = 1" ++ '\n' :: badFnLine)]).total_errors :=
  have h := validator_monotone_for_validity_violations [] [] (S "a.tsx") (S "const a = 1")
    (by decide)
  ⟨by decide, h.1, h.2⟩

/-!
C8: a missing required layout file is an error that clears validity.
-/

/-- A validation step that can only lose the success flag and only extend the
error list. -/
def TVStep (f : TVRes → TVRes) : Prop :=
  ∀ st : TVRes, (st.success = false → (f st).success = false) ∧
    ∀ e ∈ st.compilation_errors, e ∈ (f st).compilation_errors

theorem tvstep_id : TVStep (fun st => st) := fun _ => ⟨fun h => h, fun _ he => he⟩

theorem tvstep_addErr (m : LC) : TVStep (fun st => addErr st m) := by
  intro st
  refine ⟨fun _ => rfl, fun e he => ?_⟩
  exact List.mem_append_left _ he

theorem tvstep_addWarn (m : LC) : TVStep (fun st => addWarn st m) :=
  fun _ => ⟨fun h => h, fun _ he => he⟩

theorem tvstep_ite (b : Prop) [Decidable b] {f g : TVRes → TVRes}
    (hf : TVStep f) (hg : TVStep g) : TVStep (fun st => if b then f st else g st) := by
  intro st
  by_cases hb : b <;> simp only [hb, if_true, if_false]
  · exact hf st
  · exact hg st

theorem tvstep_comp {f g : TVRes → TVRes} (hf : TVStep f) (hg : TVStep g) :
    TVStep (fun st => g (f st)) := by
  intro st
  exact ⟨fun h => (hg (f st)).1 ((hf st).1 h),
    fun e he => (hg (f st)).2 e ((hf st).2 e he)⟩

theorem tvstep_requiredExport (name c : LC) : TVStep (tsxCheckRequiredExport name c) := by
  unfold tsxCheckRequiredExport
  exact tvstep_ite _ (tvstep_ite _ (tvstep_addErr _) tvstep_id) tvstep_id

theorem tvstep_reactImport (name c : LC) : TVStep (tsxCheckReactImport name c) := by
  unfold tsxCheckReactImport
  exact tvstep_ite _ (tvstep_addWarn _) tvstep_id

theorem tvstep_defaultExport (name c : LC) : TVStep (tsxCheckDefaultExport name c) := by
  unfold tsxCheckDefaultExport
  exact tvstep_ite _ (tvstep_addErr _) tvstep_id

theorem tvstep_jsxReturn (name c : LC) : TVStep (tsxCheckJsxReturn name c) := by
  unfold tsxCheckJsxReturn
  exact tvstep_ite _ (tvstep_addWarn _) tvstep_id

theorem tvstep_classClient (name c : LC) : TVStep (tsxCheckClassClient name c) := by
  unfold tsxCheckClassClient
  exact tvstep_ite _ (tvstep_addErr _) tvstep_id

theorem tvstep_alias (name c : LC) : TVStep (tsxCheckAlias name c) := by
  unfold tsxCheckAlias
  exact tvstep_ite _ (tvstep_addErr _) tvstep_id

theorem tvstep_errorBoundary (name c : LC) : TVStep (tsxCheckErrorBoundary name c) := by
  unfold tsxCheckErrorBoundary
  exact tvstep_ite _ (tvstep_addErr _) tvstep_id

theorem tvstep_layoutRules (name c : LC) : TVStep (tsxCheckLayoutRules name c) := by
  unfold tsxCheckLayoutRules
  refine tvstep_ite _ ?_ tvstep_id
  exact tvstep_comp (tvstep_ite _ (tvstep_addErr _) tvstep_id)
    (tvstep_ite _ (tvstep_addErr _) tvstep_id)

theorem tvstep_clientMetadata (name c : LC) : TVStep (tsxCheckClientMetadata name c) := by
  unfold tsxCheckClientMetadata
  exact tvstep_ite _ (tvstep_addErr _) tvstep_id

theorem tvstep_fileCheck (p : LC × LC) : TVStep (fun st => tsxFileCheck st p) := by
  have h1 := tvstep_requiredExport p.1 p.2
  have h2 := tvstep_comp h1 (tvstep_reactImport p.1 p.2)
  have h3 := tvstep_comp h2 (tvstep_defaultExport p.1 p.2)
  have h4 := tvstep_comp h3 (tvstep_jsxReturn p.1 p.2)
  have h5 := tvstep_comp h4 (tvstep_classClient p.1 p.2)
  have h6 := tvstep_comp h5 (tvstep_alias p.1 p.2)
  have h7 := tvstep_comp h6 (tvstep_errorBoundary p.1 p.2)
  have h8 := tvstep_comp h7 (tvstep_layoutRules p.1 p.2)
  have h9 := tvstep_comp h8 (tvstep_clientMetadata p.1 p.2)
  unfold tsxFileCheck
  exact tvstep_ite _ h9 tvstep_id

theorem tvstep_foldl (files : Dict) : TVStep (fun st => files.foldl tsxFileCheck st) := by
  induction files with
  | nil => exact tvstep_id
  | cons p fs ih =>
    intro st
    refine ⟨fun h => ?_, fun e he => ?_⟩
    · exact (ih (tsxFileCheck st p)).1 ((tvstep_fileCheck p st).1 h)
    · exact (ih (tsxFileCheck st p)).2 e ((tvstep_fileCheck p st).2 e he)

theorem intercalate_cons_cons_lc (sep x y : LC) (zs : List LC) :
    List.intercalate sep (x :: y :: zs) = x ++ sep ++ List.intercalate sep (y :: zs) := by
  simp [List.intercalate, List.intersperse]

theorem mem_infix_intercalate {l : LC} (sep : LC) {parts : List LC} (h : l ∈ parts) :
    l <:+: List.intercalate sep parts := by
  induction parts with
  | nil => exact absurd h (List.not_mem_nil l)
  | cons p ps ih =>
    rcases List.mem_cons.mp h with rfl | hmem
    · cases ps with
      | nil => simp [List.intercalate, List.infix_refl]
      | cons q qs =>
        rw [intercalate_cons_cons_lc, List.append_assoc]
        exact (List.prefix_append l _).isInfix
    · cases ps with
      | nil => exact absurd hmem (List.not_mem_nil l)
      | cons q qs =>
        rw [intercalate_cons_cons_lc]
        exact (ih hmem).trans (List.suffix_append _ _).isInfix

/-- C8: whenever the required `layout.tsx` is absent from the file set,
`validate_tsx_compilation` reports failure and its error list (not the
warning list) contains a message naming the missing file, whatever the
`package.json` inspection does and whatever else the files contain. -/
theorem validateTsxCompilation_missing_layout (pjErrs : LC → List LC) (pjOk : LC → Bool)
    (files : Dict) (h : dictContains files (S "layout.tsx") = false) :
    (validateTsxCompilation pjErrs pjOk files).success = false ∧
    ∃ e ∈ (validateTsxCompilation pjErrs pjOk files).compilation_errors,
      hasSubstr e (S "layout.tsx") = true := by
  have hmem : S "layout.tsx" ∈ requiredTsxFiles.filter (fun f => !dictContains files f) := by
    rw [List.mem_filter]
    refine ⟨by simp [requiredTsxFiles], ?_⟩
    rw [h]
    rfl
  have hne : (requiredTsxFiles.filter fun f => !dictContains files f).isEmpty = false := by
    rcases hq : requiredTsxFiles.filter fun f => !dictContains files f with - | ⟨a, as⟩
    · rw [hq] at hmem
      exact absurd hmem (List.not_mem_nil _)
    · rfl
  have hinmsg : hasSubstr
      (S "Missing required files: " ++
        List.intercalate (S ", ") (requiredTsxFiles.filter fun f => !dictContains files f))
      (S "layout.tsx") = true := by
    rw [hasSubstr_infix_iff]
    exact (mem_infix_intercalate (S ", ") hmem).trans (List.suffix_append _ _).isInfix
  constructor
  · simp only [validateTsxCompilation, hne, Bool.not_false, if_true]
    apply (tvstep_foldl files _).1
    split
    · simp
    · rfl
  · refine ⟨_, ?_, hinmsg⟩
    simp only [validateTsxCompilation, hne, Bool.not_false, if_true]
    apply (tvstep_foldl files _).2
    split
    · exact List.mem_append_left _ (by simp)
    · simp

/-- A one-file set without `layout.tsx`. -/
def noLayoutFiles : Dict := [(S "page.tsx", S "export default function Home() \x7b\x7d")]

/-- C8 (witness): the theorem applied to a concrete layout-less file set with
a trivial `package.json` inspection. -/
theorem validateTsxCompilation_missing_layout_witness :
    dictContains noLayoutFiles (S "layout.tsx") = false ∧
    ((validateTsxCompilation (fun _ => []) (fun _ => true) noLayoutFiles).success = false ∧
      ∃ e ∈ (validateTsxCompilation (fun _ => []) (fun _ => true)
          noLayoutFiles).compilation_errors,
        hasSubstr e (S "layout.tsx") = true) :=
  ⟨by decide,
    validateTsxCompilation_missing_layout (fun _ => []) (fun _ => true) noLayoutFiles (by decide)⟩

/-!
C3: behaviour of the parsers on delimiter-free input.
-/

/-- A blob that contains `"// "` but no delimiter line. -/
def slashBlob : LC := S "const x = 1 // comment\nmore"

/-- C3 (counterexample): on a delimiter-free blob `parse_generated_code`
returns the empty mapping, and `parse_tsx_response` on a delimiter-free blob
that merely contains `"// "` drops the blob entirely (no `page.tsx` entry,
only the synthesized defaults) — neither returns the blob under a default
name. -/
theorem parsers_drop_delimiterless_blob :
    parseGeneratedCode (S "hello") = [] ∧
    (∀ line ∈ splitLines slashBlob, isDelimLine line = false) ∧
    (parseTsxResponse slashBlob).map Prod.fst = [S "layout.tsx", S "globals.css"] := by
  decide

/-- C3 (amended): `parse_generated_code` returns the empty mapping on any
blob with no delimiter line; the default-name fallback lives only in
`parse_tsx_response`, and only when `"// "` occurs nowhere in the blob: then
the whole blob (run through the TSX fixups) becomes `page.tsx`, alongside
the default `layout.tsx` and `globals.css`. -/
theorem parser_no_delimiter_fallback :
    (∀ blob : LC, (∀ line ∈ splitLines blob, isDelimLine line = false) →
      parseGeneratedCode blob = []) ∧
    ∀ blob : LC, hasSubstr blob (S "// ") = false →
      parseTsxResponse blob =
        [(S "page.tsx", fixTsxIssues blob (S "page.tsx")),
          (S "layout.tsx", defaultLayout), (S "globals.css", defaultGlobals)] := by
  constructor
  · intro blob hnd
    rw [parseGeneratedCode]
    have hsteady : ∀ (lines : List LC), (∀ l ∈ lines, isDelimLine l = false) →
        lines.foldl pgcStep ⟨none, [], []⟩ = ⟨none, [], []⟩ := by
      intro lines hl
      induction lines with
      | nil => rfl
      | cons l ls ih =>
        rw [List.foldl_cons]
        have hstep : pgcStep ⟨none, [], []⟩ l = ⟨none, [], []⟩ := by
          simp [pgcStep, hl l (List.mem_cons_self _ _)]
        rw [hstep]
        exact ih fun x hx => hl x (List.mem_cons_of_mem _ hx)
    rw [hsteady _ hnd]
    rfl
  · intro blob h
    simp only [parseTsxResponse, h, Bool.false_eq_true, if_false]
    rfl

/-- C3 (witness): the amended behaviour on concrete blobs. -/
theorem parser_no_delimiter_fallback_witness :
    (∀ line ∈ splitLines (S "hello"), isDelimLine line = false) ∧
    parseGeneratedCode (S "hello") = [] ∧
    hasSubstr (S "hello") (S "// ") = false ∧
    parseTsxResponse (S "hello") =
      [(S "page.tsx", fixTsxIssues (S "hello") (S "page.tsx")),
        (S "layout.tsx", defaultLayout), (S "globals.css", defaultGlobals)] :=
  ⟨by decide, parser_no_delimiter_fallback.1 (S "hello") (by decide), by decide,
    parser_no_delimiter_fallback.2 (S "hello") (by decide)⟩

/-!
C5: round-trip of `parse_generated_code` against the spec's
`join_with_markers`.  First, facts about `pyStrip` fixpoints and marker
lines.
-/

theorem dropWhile_eq_self_of_ne_nil {p : Char → Bool} {l : LC}
    (h : l.dropWhile p = l) (hne : l ≠ []) : ∃ b bs, l = b :: bs ∧ p b = false := by
  cases l with
  | nil => exact absurd rfl hne
  | cons b bs =>
    refine ⟨b, bs, rfl, ?_⟩
    by_contra hb
    rw [List.dropWhile_cons, if_pos (by simpa using hb)] at h
    have := (h ▸ List.dropWhile_suffix (l := bs) p).length_le
    simp at this

theorem dropTrail_append_of_fixed {p : Char → Bool} {y : LC} (x : LC)
    (hy : dropTrail p y = y) (hne : y ≠ []) : dropTrail p (x ++ y) = x ++ y := by
  rw [dropTrail] at hy
  have hy' : List.dropWhile p y.reverse = y.reverse := by
    have h2 := congrArg List.reverse hy
    rwa [List.reverse_reverse] at h2
  have hrne : y.reverse ≠ [] := fun hr => hne (by simpa using hr)
  obtain ⟨b, bs, hrev, hb⟩ := dropWhile_eq_self_of_ne_nil hy' hrne
  rw [dropTrail, List.reverse_append, hrev, List.cons_append, List.dropWhile_cons, hb]
  rw [if_neg (by simp), ← List.cons_append, ← hrev, ← List.reverse_append,
    List.reverse_reverse]

theorem pyStrip_fix_parts {l : LC} (h : pyStrip l = l) :
    l.dropWhile pyIsSpace = l ∧ dropTrail pyIsSpace l = l := by
  have hsuf : l.dropWhile pyIsSpace <:+ l := List.dropWhile_suffix pyIsSpace
  have hlen1 : (dropTrail pyIsSpace (l.dropWhile pyIsSpace)).length ≤
      (l.dropWhile pyIsSpace).length := by
    rw [dropTrail, List.length_reverse]
    calc ((l.dropWhile pyIsSpace).reverse.dropWhile pyIsSpace).length
        ≤ (l.dropWhile pyIsSpace).reverse.length :=
          (List.dropWhile_suffix pyIsSpace).length_le
      _ = (l.dropWhile pyIsSpace).length := List.length_reverse _
  have hlen2 : (l.dropWhile pyIsSpace).length ≤ l.length := hsuf.length_le
  have hfull : (pyStrip l).length = l.length := by rw [h]
  rw [pyStrip] at hfull
  have hdW : (l.dropWhile pyIsSpace).length = l.length := le_antisymm hlen2 (by omega)
  have hdWeq : l.dropWhile pyIsSpace = l := hsuf.eq_of_length hdW
  constructor
  · exact hdWeq
  · rw [pyStrip, hdWeq] at h
    exact h

/-- The delimiter line the spec's join writes for a filename. -/
def markLine (n : LC) : LC := S "// " ++ n

/-- A filename acceptable to the round-trip: newline-free, trim-stable, with
one of the extensions `parse_generated_code` recognises. -/
def goodName (n : LC) : Prop :=
  '\n' ∉ n ∧ pyStrip n = n ∧
    ((S ".tsx").isSuffixOf n = true ∨ (S ".css").isSuffixOf n = true)

/-- A file body acceptable to the round-trip: trim-stable and free of
delimiter-shaped lines. -/
def goodContent (c : LC) : Prop :=
  pyStrip c = c ∧ ∀ line ∈ splitLines c, isDelimLine line = false

/-- The line stream the joined text splits into. -/
def markerStream : List (LC × LC) → List LC
  | [] => []
  | (n, c) :: fs => markLine n :: (splitLines c ++ markerStream fs)

theorem goodName_ne_nil {n : LC} (h : goodName n) : n ≠ [] := by
  rintro rfl
  rcases h.2.2 with h4 | h4 <;> exact absurd h4 (by decide)

theorem pyStrip_markLine {n : LC} (h : goodName n) : pyStrip (markLine n) = markLine n := by
  have hstrip := h.2.1
  obtain ⟨-, hdt⟩ := pyStrip_fix_parts hstrip
  rw [pyStrip, markLine, show S "// " ++ n = '/' :: ('/' :: (' ' :: n)) from rfl,
    List.dropWhile_cons, if_neg (by decide),
    show ('/' :: ('/' :: (' ' :: n))) = S "// " ++ n from rfl]
  exact dropTrail_append_of_fixed _ hdt (goodName_ne_nil h)

theorem drop3_markLine (n : LC) : (markLine n).drop 3 = n := rfl

theorem isDelimLine_markLine {n : LC} (h : goodName n) : isDelimLine (markLine n) = true := by
  rw [isDelimLine, pyStrip_markLine h]
  have h1 : (S "// ").isPrefixOf (markLine n) = true :=
    List.isPrefixOf_iff_prefix.mpr (List.prefix_append _ _)
  rcases h.2.2 with h4 | h4
  · have h2 : (S ".tsx").isSuffixOf (markLine n) = true :=
      List.isSuffixOf_iff_suffix.mpr
        ((List.isSuffixOf_iff_suffix.mp h4).trans (List.suffix_append _ _))
    rw [h1, h2]
    rfl
  · have h2 : (S ".css").isSuffixOf (markLine n) = true :=
      List.isSuffixOf_iff_suffix.mpr
        ((List.isSuffixOf_iff_suffix.mp h4).trans (List.suffix_append _ _))
    rw [h1, h2]
    simp

theorem pgcStep_mark (st : PGCState) {n : LC} (h : goodName n) :
    pgcStep st (markLine n) = ⟨some n, [], pgcFlush st⟩ := by
  simp [pgcStep, isDelimLine_markLine h, pyStrip_markLine h, drop3_markLine]

theorem pgc_content_run (lines : List LC) (hl : ∀ l ∈ lines, isDelimLine l = false)
    {n : LC} (hn : n.isEmpty = false) (cont : List LC) (files : Dict) :
    lines.foldl pgcStep ⟨some n, cont, files⟩ = ⟨some n, cont ++ lines, files⟩ := by
  induction lines generalizing cont with
  | nil => simp
  | cons l ls ih =>
    rw [List.foldl_cons]
    have hstep : pgcStep ⟨some n, cont, files⟩ l = ⟨some n, cont ++ [l], files⟩ := by
      simp [pgcStep, hl l (List.mem_cons_self _ _), hn]
    rw [hstep, ih (fun x hx => hl x (List.mem_cons_of_mem _ hx)) (cont ++ [l])]
    simp

theorem pgcFlush_loaded {n c : LC} (hn : n.isEmpty = false) (hc : pyStrip c = c)
    (files : Dict) : pgcFlush ⟨some n, splitLines c, files⟩ = dictSet files n c := by
  have hne : (splitLines c).isEmpty = false := List.isEmpty_eq_false.mpr (splitLines_ne_nil c)
  simp [pgcFlush, hn, hne, joinLines_splitLines, hc]

theorem dictSet_fresh {d : Dict} {k : LC} (h : ∀ q ∈ d, q.1 ≠ k) (v : LC) :
    dictSet d k v = d ++ [(k, v)] := by
  induction d with
  | nil => rfl
  | cons q rest ih =>
    obtain ⟨k', v'⟩ := q
    rw [dictSet, if_neg (h (k', v') (List.mem_cons_self _ _)),
      ih (fun x hx => h x (List.mem_cons_of_mem _ hx)), List.cons_append]

theorem no_newline_markLine {n : LC} (hn : '\n' ∉ n) : '\n' ∉ markLine n := by
  intro hm
  rw [markLine] at hm
  rcases List.mem_append.mp hm with h1 | h1
  · exact absurd h1 (by decide)
  · exact hn h1

theorem splitLines_join_cons (n c : LC) (fs : List (LC × LC)) (hn : '\n' ∉ n)
    (hfs : ∀ p ∈ fs, '\n' ∉ p.1) :
    splitLines (specJoinWithMarkers ((n, c) :: fs)) = markerStream ((n, c) :: fs) := by
  induction fs generalizing n c with
  | nil =>
    show splitLines ((S "// " ++ n) ++ '\n' :: c) = markLine n :: (splitLines c ++ [])
    rw [splitLines_append, ← markLine,
      splitLines_of_no_newline (no_newline_markLine hn), List.append_nil]
    rfl
  | cons f fs ih =>
    obtain ⟨m, d⟩ := f
    show splitLines (((S "// " ++ n) ++ '\n' :: c) ++
        '\n' :: specJoinWithMarkers ((m, d) :: fs)) =
      markLine n :: (splitLines c ++ markerStream ((m, d) :: fs))
    rw [splitLines_append, splitLines_append, ← markLine,
      splitLines_of_no_newline (no_newline_markLine hn),
      ih m d (hfs (m, d) (List.mem_cons_self _ _))
        (fun p hp => hfs p (List.mem_cons_of_mem _ hp)),
      List.append_assoc]
    rfl

theorem goodName_isEmpty_false {n : LC} (h : goodName n) : n.isEmpty = false :=
  List.isEmpty_eq_false.mpr (goodName_ne_nil h)

theorem pgc_run (fs : List (LC × LC)) :
    ∀ (n c : LC) (acc : Dict),
    (∀ p ∈ fs, goodName p.1 ∧ goodContent p.2) →
    goodName n → goodContent c →
    (∀ q ∈ acc, q.1 ≠ n ∧ ∀ p ∈ fs, q.1 ≠ p.1) →
    n ∉ fs.map Prod.fst → (fs.map Prod.fst).Nodup →
    pgcFlush ((splitLines c ++ markerStream fs).foldl pgcStep ⟨some n, [], acc⟩) =
      acc ++ (n, c) :: fs := by
  induction fs with
  | nil =>
    intro n c acc hfs hn hc hfresh hmem hnd
    rw [markerStream, List.append_nil,
      pgc_content_run _ hc.2 (goodName_isEmpty_false hn) [] acc, List.nil_append,
      pgcFlush_loaded (goodName_isEmpty_false hn) hc.1,
      dictSet_fresh (fun q hq => (hfresh q hq).1) c]
  | cons f fs ih =>
    obtain ⟨m, d⟩ := f
    intro n c acc hfs hn hc hfresh hmem hnd
    have hmgood := (hfs (m, d) (List.mem_cons_self _ _)).1
    have hdgood := (hfs (m, d) (List.mem_cons_self _ _)).2
    rw [List.map_cons] at hmem hnd
    have hnm : n ≠ m := fun he => hmem (he ▸ List.mem_cons_self m (fs.map Prod.fst))
    have hnfs : n ∉ fs.map Prod.fst := fun hin => hmem (List.mem_cons_of_mem _ hin)
    rw [markerStream, List.foldl_append,
      pgc_content_run _ hc.2 (goodName_isEmpty_false hn) [] acc, List.nil_append,
      List.foldl_cons, pgcStep_mark _ hmgood,
      pgcFlush_loaded (goodName_isEmpty_false hn) hc.1,
      dictSet_fresh (fun q hq => (hfresh q hq).1) c]
    have hfresh' : ∀ q ∈ acc ++ [(n, c)], q.1 ≠ m ∧ ∀ p ∈ fs, q.1 ≠ p.1 := by
      intro q hq
      rcases List.mem_append.mp hq with hq1 | hq1
      · exact ⟨(hfresh q hq1).2 (m, d) (List.mem_cons_self _ _),
          fun p hp => (hfresh q hq1).2 p (List.mem_cons_of_mem _ hp)⟩
      · have : q = (n, c) := by simpa using hq1
        subst this
        refine ⟨hnm, fun p hp he => hnfs ?_⟩
        rw [show n = p.1 from he]
        exact List.mem_map_of_mem Prod.fst hp
    rw [ih m d (acc ++ [(n, c)]) (fun p hp => hfs p (List.mem_cons_of_mem _ hp))
      hmgood hdgood hfresh' (List.nodup_cons.mp hnd).1 (List.nodup_cons.mp hnd).2]
    simp

instance (n : LC) : Decidable (goodName n) := by
  unfold goodName
  infer_instance

instance (c : LC) : Decidable (goodContent c) := by
  unfold goodContent
  infer_instance

/-- C5 (counterexample): parsing strips each body, so the round-trip already
fails on a single file whose content carries leading whitespace — even though
the filename has an expected extension and the content has no
delimiter-shaped line. -/
theorem parse_join_not_inverse_on_untrimmed :
    goodName (S "a.tsx") ∧
    (∀ line ∈ splitLines (S " x"), isDelimLine line = false) ∧
    parseGeneratedCode (specJoinWithMarkers [(S "a.tsx", S " x")]) = [(S "a.tsx", S "x")] ∧
    parseGeneratedCode (specJoinWithMarkers [(S "a.tsx", S " x")]) ≠ [(S "a.tsx", S " x")] := by
  decide

/-- C5 (amended): `parse(join_with_markers(files)) == files` for every
mapping of distinct, trim-stable, newline-free filenames with the expected
extensions to trim-stable content strings containing no delimiter-shaped
line; every file body between two delimiters lands, trimmed, in exactly one
output entry, in order.  Without trim-stability the body comes back stripped
of leading/trailing whitespace (see the counterexample), which is the only
loss. -/
theorem parse_join_roundtrip_trimmed (files : List (LC × LC))
    (hgood : ∀ p ∈ files, goodName p.1 ∧ goodContent p.2)
    (hnd : (files.map Prod.fst).Nodup) :
    parseGeneratedCode (specJoinWithMarkers files) = files := by
  cases files with
  | nil => rfl
  | cons f fs =>
    obtain ⟨n, c⟩ := f
    have hn := (hgood (n, c) (List.mem_cons_self _ _)).1
    have hc := (hgood (n, c) (List.mem_cons_self _ _)).2
    rw [parseGeneratedCode,
      splitLines_join_cons n c fs hn.1 (fun p hp => (hgood p (List.mem_cons_of_mem _ hp)).1.1),
      markerStream, List.foldl_cons, pgcStep_mark _ hn, List.map_cons] at *
    exact pgc_run fs n c [] (fun p hp => hgood p (List.mem_cons_of_mem _ hp)) hn hc
      (fun q hq => absurd hq (List.not_mem_nil q)) (List.nodup_cons.mp hnd).1
      (List.nodup_cons.mp hnd).2

/-- A concrete two-file mapping for the round-trip. -/
def roundtripFiles : List (LC × LC) :=
  [(S "page.tsx", S "export default function Home() \x7b\n  return null\n\x7d"),
    (S "globals.css", S "body \x7b color: red \x7d")]

/-- C5 (witness): the round-trip on a concrete two-file mapping. -/
theorem parse_join_roundtrip_trimmed_witness :
    (∀ p ∈ roundtripFiles, goodName p.1 ∧ goodContent p.2) ∧
    (roundtripFiles.map Prod.fst).Nodup ∧
    parseGeneratedCode (specJoinWithMarkers roundtripFiles) = roundtripFiles :=
  ⟨by decide, by decide,
    parse_join_roundtrip_trimmed roundtripFiles (by decide) (by decide)⟩
